import Mathlib

/-!
Verification of the maubot-ntfy topic subscription engine.

Shallow embedding of `src/ntfy/bot.py`, `src/ntfy/db.py` and
`src/ntfy/emoji.py`: pure fragments become Lean functions, the
database-backed manager state becomes an explicit record with a step
relation, and the per-topic stream read loop becomes a fold over the
list of received lines that additionally records an action trace
(cursor persists and room deliveries, in execution order).
-/

namespace Ntfy

/-! ## emoji.py: parse_tags

`parse_tags` walks the tag list; for each tag it emojizes `":{tag}:"`
and, when the result is recognised as an emoji, appends the glyph to
the first list, otherwise appends the tag itself to the second list.
The emoji library (or its fallback table) is abstracted as the pair
`em` (emojize) / `ie` (is_emoji). -/

def parse_tags (em : String → String) (ie : String → Bool) :
    List String → List String × List String
  | [] => ([], [])
  | tag :: rest =>
      let r := parse_tags em ie rest
      let emojized := em (":" ++ tag ++ ":")
      if ie emojized then (emojized :: r.1, r.2) else (r.1, tag :: r.2)

/-- The classifier applied to a single tag, as `parse_tags` computes it. -/
def tagIsEmoji (em : String → String) (ie : String → Bool) (tag : String) : Bool :=
  ie (em (":" ++ tag ++ ":"))

/-- The glyph a recognised tag contributes. -/
def tagGlyph (em : String → String) (tag : String) : String :=
  em (":" ++ tag ++ ":")

theorem parse_tags_eq (em : String → String) (ie : String → Bool) (tags : List String) :
    parse_tags em ie tags =
      ((tags.filter (tagIsEmoji em ie)).map (tagGlyph em),
       tags.filter (fun t => !tagIsEmoji em ie t)) := by
  induction tags with
  | nil => rfl
  | cons t ts ih =>
      simp only [parse_tags, ih, List.filter_cons, tagIsEmoji, tagGlyph]
      rcases Bool.eq_false_or_eq_true (ie (em (":" ++ t ++ ":"))) with h | h <;>
        simp [h, tagGlyph]

/-- C10: parse_tags partitions its input: every input tag lands in exactly one
of the two returned lists — recognised tags contribute their glyph to the
first list, the rest appear verbatim in the second — each preserving the
input's relative order, and the two lengths sum to the input's length. -/
theorem parse_tags_partition (em : String → String) (ie : String → Bool)
    (tags : List String) :
    (parse_tags em ie tags).1 = (tags.filter (tagIsEmoji em ie)).map (tagGlyph em) ∧
    (parse_tags em ie tags).2 = tags.filter (fun t => !tagIsEmoji em ie t) ∧
    (parse_tags em ie tags).1.length + (parse_tags em ie tags).2.length = tags.length := by
  have h := parse_tags_eq em ie tags
  refine ⟨by rw [h], by rw [h], ?_⟩
  rw [h]
  simp only [List.length_map]
  exact (List.length_eq_length_filter_add (tagIsEmoji em ie)).symm

/-! ## Python semantics helpers

Python truthiness for the optional string / list / dict fields the bot
tests with bare `if x:`: `None` and empty values are falsy. -/

def strTruthy (o : Option String) : Bool := o.getD "" ≠ ""

def listTruthy (o : Option (List String)) : Bool := !(o.getD []).isEmpty

/-! ## html.escape and str.replace

`html.escape` with the default `quote=True` rewrites the five
markup-significant characters to entities; character-wise rewriting is
equivalent to CPython's sequence of `str.replace` calls because no
replacement string contains a character replaced later except the `&`
that each entity starts with, which CPython also avoids re-expanding by
replacing `&` first. -/

def escChars (c : Char) : List Char :=
  if c = '&' then ['&', 'a', 'm', 'p', ';']
  else if c = '<' then ['&', 'l', 't', ';']
  else if c = '>' then ['&', 'g', 't', ';']
  else if c = Char.ofNat 34 then ['&', 'q', 'u', 'o', 't', ';']
  else if c = Char.ofNat 39 then ['&', '#', 'x', '2', '7', ';']
  else [c]

def htmlEscape (s : String) : String := ⟨s.data.flatMap escChars⟩

/-- `str.replace("\n", "<br />")`, character-wise (single-char pattern). -/
def nlToBr (s : String) : String :=
  ⟨s.data.flatMap (fun c => if c = '\n' then ['<', 'b', 'r', ' ', '/', '>'] else [c])⟩

/-! ## The decoded stream event (one line of the ntfy JSON stream)

`event` and `id` are the keys `run_topic_subscription` always reads;
`topic` and `message` are present on every `"message"` event; the rest
are optional. -/

structure Attachment where
  url : String
  name : String
deriving DecidableEq, Repr

structure StreamEvent where
  id : String
  event : String
  topic : String := ""
  message : String := ""
  title : Option String := none
  tags : Option (List String) := none
  click : Option String := none
  attachment : Option Attachment := none
deriving DecidableEq, Repr

/-! ## bot.py: build_message_content -/

def buildMessageContent (em : String → String) (ie : String → Bool)
    (server : String) (m : StreamEvent) : String :=
  let p :=
    if listTruthy m.tags then
      let r := parse_tags em ie (m.tags.getD [])
      (String.join r.1 ++ " ", String.intercalate ", " r.2)
    else ("", "")
  let emojiStr := p.1
  let tagsStr := p.2
  let header := "<span>Ntfy message in topic <code>" ++ htmlEscape server ++ "/" ++
    htmlEscape m.topic ++ "</code></span><blockquote>"
  let titlePart :=
    if strTruthy m.title && strTruthy m.click then
      "<h4>" ++ emojiStr ++ "<a href=\"" ++ htmlEscape (m.click.getD "") ++ "\">" ++
        htmlEscape (m.title.getD "") ++ "</a></h4>"
    else if strTruthy m.title then
      "<h4>" ++ emojiStr ++ htmlEscape (m.title.getD "") ++ "</h4>"
    else ""
  let emojiStr := if strTruthy m.title then "" else emojiStr
  let bodyPart :=
    if strTruthy m.click && !strTruthy m.title then
      emojiStr ++ "<a href=\"" ++ htmlEscape (m.click.getD "") ++ "\">" ++
        nlToBr (htmlEscape m.message) ++ "</a>"
    else emojiStr ++ nlToBr (htmlEscape m.message)
  let tagsPart :=
    if tagsStr ≠ "" then
      "<br/><small>Tags: <code>" ++ htmlEscape tagsStr ++ "</code></small>"
    else ""
  let attPart :=
    match m.attachment with
    | some a => "<br/><a href=\"" ++ htmlEscape a.url ++ "\">View " ++
        htmlEscape a.name ++ "</a>"
    | none => ""
  header ++ titlePart ++ bodyPart ++ tagsPart ++ attPart ++ "</blockquote>"

/-- Modelled from the spec: the same markup template, but taking every
user-controlled text field already escaped (`eServer`, `eTopic`, `eTitle`,
`eClick`, `eBody`, `eTags`, `eAttUrl`, `eAttName`); this definition never
calls `htmlEscape` on user data, so an equality with
`buildMessageContent` shows each field passes through `htmlEscape` before
being interpolated. -/
def assembleEscaped (emojiRaw : String) (eServer eTopic : String)
    (titleT clickT tagsT : Bool) (eTitle eClick eBody eTags : String)
    (eAtt : Option (String × String)) : String :=
  let header := "<span>Ntfy message in topic <code>" ++ eServer ++ "/" ++
    eTopic ++ "</code></span><blockquote>"
  let titlePart :=
    if titleT && clickT then
      "<h4>" ++ emojiRaw ++ "<a href=\"" ++ eClick ++ "\">" ++ eTitle ++ "</a></h4>"
    else if titleT then "<h4>" ++ emojiRaw ++ eTitle ++ "</h4>"
    else ""
  let emojiStr := if titleT then "" else emojiRaw
  let bodyPart :=
    if clickT && !titleT then
      emojiStr ++ "<a href=\"" ++ eClick ++ "\">" ++ nlToBr eBody ++ "</a>"
    else emojiStr ++ nlToBr eBody
  let tagsPart :=
    if tagsT then "<br/><small>Tags: <code>" ++ eTags ++ "</code></small>" else ""
  let attPart :=
    match eAtt with
    | some a => "<br/><a href=\"" ++ a.1 ++ "\">View " ++ a.2 ++ "</a>"
    | none => ""
  header ++ titlePart ++ bodyPart ++ tagsPart ++ attPart ++ "</blockquote>"

/-- The emoji-glyph prefix string computed from the tags (not escaped by the
source, and not a user-controlled *text* field: it is the classifier's
glyph output). -/
def emojiPrefix (em : String → String) (ie : String → Bool) (m : StreamEvent) : String :=
  if listTruthy m.tags then String.join (parse_tags em ie (m.tags.getD [])).1 ++ " "
  else ""

/-- The comma-joined plain (non-emoji) tags string. -/
def plainTags (em : String → String) (ie : String → Bool) (m : StreamEvent) : String :=
  if listTruthy m.tags then
    String.intercalate ", " (parse_tags em ie (m.tags.getD [])).2
  else ""

lemma escChars_no_markup (c : Char) :
    '<' ∉ escChars c ∧ '>' ∉ escChars c ∧ Char.ofNat 34 ∉ escChars c := by
  unfold escChars
  split
  · decide
  · split
    · decide
    · split
      · decide
      · split
        · decide
        · split
          · decide
          · simp_all [eq_comm]

lemma htmlEscape_no_markup (s : String) :
    '<' ∉ (htmlEscape s).data ∧ '>' ∉ (htmlEscape s).data ∧
      Char.ofNat 34 ∉ (htmlEscape s).data := by
  have hd : (htmlEscape s).data = s.data.flatMap escChars := rfl
  rw [hd]
  refine ⟨?_, ?_, ?_⟩ <;>
  · intro hmem
    rw [List.mem_flatMap] at hmem
    obtain ⟨c, -, hc⟩ := hmem
    have h := escChars_no_markup c
    tauto

/-- C9: every user-controlled text field that reaches the formatter's output
(server, topic, title, body, plain tags, click URL, attachment URL,
attachment name) is passed through `htmlEscape` before interpolation: the
output factors through `assembleEscaped`, which receives only the
already-escaped fields and never escapes, and an `htmlEscape`d string can
contain none of the raw markup characters `<`, `>`, `"`. -/
theorem buildMessageContent_escapes (em : String → String) (ie : String → Bool)
    (server : String) (m : StreamEvent) :
    buildMessageContent em ie server m =
      assembleEscaped (emojiPrefix em ie m) (htmlEscape server) (htmlEscape m.topic)
        (strTruthy m.title) (strTruthy m.click) (plainTags em ie m != "")
        (htmlEscape (m.title.getD "")) (htmlEscape (m.click.getD ""))
        (htmlEscape m.message) (htmlEscape (plainTags em ie m))
        (m.attachment.map (fun a => (htmlEscape a.url, htmlEscape a.name))) ∧
    ∀ s : String, '<' ∉ (htmlEscape s).data ∧ '>' ∉ (htmlEscape s).data ∧
      Char.ofNat 34 ∉ (htmlEscape s).data := by
  refine ⟨?_, htmlEscape_no_markup⟩
  simp only [buildMessageContent, assembleEscaped, emojiPrefix, plainTags]
  rcases m with ⟨id, ev, topic, msg, title, tags, click, att⟩
  rcases att with _ | a <;>
    rcases Bool.eq_false_or_eq_true (listTruthy tags) with ht | ht <;>
      simp [ht, bne_iff_ne]

/-! ## bot.py: subscribe_to_topic URL construction

`url = "%s/%s/json" % (server, topic)`; prefix `https://` unless the url
already starts with `http://` or `https://`; append `?since=...` when the
stored cursor is truthy (`if topic.last_event_id:`). -/

def strStartsWith (s p : String) : Bool := p.data.isPrefixOf s.data

def buildUrl (server topic : String) (last_event_id : Option String) : String :=
  let url := server ++ "/" ++ topic ++ "/json"
  let url :=
    if strStartsWith url "http://" || strStartsWith url "https://" then url
    else "https://" ++ url
  if strTruthy last_event_id then url ++ "?since=" ++ last_event_id.getD "" else url

lemma scheme_isPrefixOf_false (s l : List Char) (h : ':' ∉ s) :
    (['h', 't', 't', 'p', ':', '/', '/'].isPrefixOf (s ++ '/' :: l)) = false ∧
    (['h', 't', 't', 'p', 's', ':', '/', '/'].isPrefixOf (s ++ '/' :: l)) = false := by
  rcases s with _ | ⟨a, _ | ⟨b, _ | ⟨c, _ | ⟨d, _ | ⟨e, _ | ⟨f, rest⟩⟩⟩⟩⟩⟩
  · simp [List.isPrefixOf]
  · simp [List.isPrefixOf]
  · simp [List.isPrefixOf]
  · simp [List.isPrefixOf]
  · constructor <;> rw [Bool.eq_false_iff] <;> intro hp <;>
      simp [List.isPrefixOf, Bool.and_eq_true] at hp
  · have he : e ≠ ':' := fun hcontra => h (by simp [hcontra])
    constructor <;> rw [Bool.eq_false_iff] <;> intro hp <;>
      simp only [List.isPrefixOf, Bool.and_eq_true, beq_iff_eq] at hp <;> tauto
  · have he : e ≠ ':' := fun hcontra => h (by simp [hcontra])
    have hf : f ≠ ':' := fun hcontra => h (by simp [hcontra])
    constructor <;> rw [Bool.eq_false_iff] <;> intro hp <;>
      simp [List.isPrefixOf, Bool.and_eq_true] at hp <;> tauto

lemma buildUrl_base (server topic : String) (h : ':' ∉ server.data) :
    (strStartsWith (server ++ "/" ++ topic ++ "/json") "http://" ||
      strStartsWith (server ++ "/" ++ topic ++ "/json") "https://") = false := by
  have hd : (server ++ "/" ++ topic ++ "/json").data =
      server.data ++ '/' :: (topic.data ++ ['/', 'j', 's', 'o', 'n']) := by
    simp [String.data_append]
  have h2 := scheme_isPrefixOf_false server.data (topic.data ++ ['/', 'j', 's', 'o', 'n']) h
  simp only [strStartsWith, hd]
  simp [h2.1, h2.2]

/-- C4 counterexample: the claim's biconditional "the `?since=` parameter is
appended exactly when the cursor is present" fails: with the present (but
empty-string) cursor `some ""` the code appends nothing — the URL is
identical to the null-cursor URL (Python `if topic.last_event_id:` is
falsy for `""`). Likewise, its scheme clause fails on the unvalidated
server string `"http:/"`, which starts with neither `"http://"` nor
`"https://"` yet receives no `https://` prefix, because the code tests the
concatenated URL rather than the server. -/
theorem buildUrl_claim_false :
    buildUrl "example.com" "t" (some "") = buildUrl "example.com" "t" none ∧
    buildUrl "example.com" "t" none = "https://example.com/t/json" ∧
    buildUrl "http:/" "t" none = "http://t/json" := by
  refine ⟨by decide, by decide, by decide⟩

/-- C4 (amended): for any server string free of `':'` (every server accepted
by the subscribe command's regex is), the stream URL is
`https://server/topic/json` — the scheme prefix is added since such a
server starts with neither `http://` nor `https://` — and
`?since=<last_event_id>` is appended exactly when the persisted cursor is
present AND non-empty; it is omitted when the cursor is null or `""`. -/
theorem buildUrl_spec (server topic c : String) (h : ':' ∉ server.data)
    (hc : c ≠ "") :
    buildUrl server topic none = "https://" ++ server ++ "/" ++ topic ++ "/json" ∧
    buildUrl server topic (some c) =
      "https://" ++ server ++ "/" ++ topic ++ "/json" ++ "?since=" ++ c ∧
    buildUrl server topic (some "") = buildUrl server topic none := by
  have hb := buildUrl_base server topic h
  simp only [String.append_assoc] at hb
  refine ⟨?_, ?_, ?_⟩ <;>
    simp [buildUrl, hb, strTruthy, hc, String.append_assoc]

/-- Witness for `buildUrl_spec` at `server = "example.com"`, `topic = "t"`,
`c = "1"`. -/
theorem buildUrl_spec_witness :
    buildUrl "example.com" "t" none = "https://example.com/t/json" ∧
    buildUrl "example.com" "t" (some "1") = "https://example.com/t/json?since=1" ∧
    buildUrl "example.com" "t" (some "") = buildUrl "example.com" "t" none := by
  have h := buildUrl_spec "example.com" "t" "1" (by decide) (by decide)
  exact ⟨by rw [h.1]; rfl, by rw [h.2.1]; rfl, h.2.2⟩

/-! ## db.py: table rows and the operations the stream loop uses -/

structure TopicRow where
  id : Nat
  server : String
  topic : String
  last_event_id : Option String
deriving DecidableEq, Repr

structure SubRow where
  topic_id : Nat
  room_id : String
deriving DecidableEq, Repr

structure DBState where
  topics : List TopicRow
  subs : List SubRow
deriving DecidableEq, Repr

/-- `UPDATE topics SET last_event_id=$2 WHERE id=$1`. -/
def update_topic_id (db : DBState) (tid : Nat) (eid : String) : DBState :=
  { db with
    topics := db.topics.map fun t =>
      if t.id = tid then { t with last_event_id := some eid } else t }

/-- `SELECT topic_id, room_id FROM subscriptions WHERE topic_id = $1`. -/
def get_subscriptions (db : DBState) (tid : Nat) : List SubRow :=
  db.subs.filter (fun r => r.topic_id == tid)

/-! ## bot.py: run_topic_subscription

The read loop, one decoded event at a time.  For a `"message"` event the
code first awaits `update_topic_id(topic.id, message["id"])`, then builds
the content, loads the current subscriber list and sends to each room in
turn, catching and logging per-room failures.  The `Action` trace records
the cursor persist and the per-room delivery attempts in execution order;
`sendOk` tells which rooms' `client.send_message` succeeds. -/

inductive Action where
  | persistCursor (tid : Nat) (eid : String)
  | deliver (room : String) (ok : Bool)
deriving DecidableEq, Repr

def processEvent (sendOk : String → Bool) (tid : Nat) (db : DBState)
    (e : StreamEvent) : DBState × List Action :=
  if e.event ≠ "message" then (db, [])
  else
    let db1 := update_topic_id db tid e.id
    let rooms := (get_subscriptions db1 tid).map (·.room_id)
    (db1, Action.persistCursor tid e.id :: rooms.map (fun r => .deliver r (sendOk r)))

def runEvents (sendOk : String → Bool) (tid : Nat) (db : DBState) :
    List StreamEvent → DBState × List Action
  | [] => (db, [])
  | e :: es =>
      let r1 := processEvent sendOk tid db e
      let r2 := runEvents sendOk tid r1.1 es
      (r2.1, r1.2 ++ r2.2)

/-- How the read loop ends: it has no normal-return path.  `decodeFail l rest`
is the iteration whose `json.loads` (or the blank line produced by
`readline` at end of stream) raised, killing the task with the remaining
lines unprocessed; `eof` is the supplied line list running out, at which
point the real loop's next `readline` yields `b""` and `json.loads("")`
raises just the same. -/
inductive RunEnd where
  | decodeFail (line : String) (rest : List String)
  | eof
deriving DecidableEq, Repr

/-- `str.strip()` on the received line, embedded character-wise over the
ASCII whitespace the ntfy stream can produce (space, tab, CR, LF). -/
def isSpaceChar (c : Char) : Bool :=
  c = ' ' || c = '\n' || c = '\t' || c = '\r'

def pyStrip (s : String) : String :=
  ⟨((s.data.dropWhile isSpaceChar).reverse.dropWhile isSpaceChar).reverse⟩

def runLines (decode : String → Option StreamEvent) (sendOk : String → Bool)
    (tid : Nat) (db : DBState) : List String → DBState × List Action × RunEnd
  | [] => (db, [], .eof)
  | l :: ls =>
      match decode (pyStrip l) with
      | none => (db, [], .decodeFail l ls)
      | some e =>
          let r1 := processEvent sendOk tid db e
          let r2 := runLines decode sendOk tid r1.1 ls
          (r2.1, r1.2 ++ r2.2.1, r2.2.2)

/-- The stored cursor of topic `tid`: `none` when no such row exists,
`some c` when the first row with that id holds cursor `c`. -/
def cursorOf (db : DBState) (tid : Nat) : Option (Option String) :=
  (db.topics.find? (fun t => t.id == tid)).map (·.last_event_id)

lemma find?_update (ts : List TopicRow) (tid : Nat) (eid : String) :
    (ts.map (fun t =>
        if t.id = tid then { t with last_event_id := some eid } else t)).find?
          (fun t => t.id == tid) =
      (ts.find? (fun t => t.id == tid)).map
        (fun t => { t with last_event_id := some eid }) := by
  induction ts with
  | nil => rfl
  | cons t ts ih =>
      by_cases h : t.id = tid
      · simp [List.find?_cons, h]
      · simp [List.find?_cons, h, ih]

lemma cursorOf_update (db : DBState) (tid : Nat) (eid : String) :
    cursorOf (update_topic_id db tid eid) tid =
      (cursorOf db tid).map (fun _ => some eid) := by
  simp only [cursorOf, update_topic_id]
  rw [find?_update]
  cases db.topics.find? (fun t => t.id == tid) <;> rfl

lemma processEvent_subs (sendOk : String → Bool) (tid : Nat) (db : DBState)
    (e : StreamEvent) : (processEvent sendOk tid db e).1.subs = db.subs := by
  unfold processEvent
  split <;> rfl

lemma processEvent_topicShape (sendOk : String → Bool) (tid : Nat) (db : DBState)
    (e : StreamEvent) :
    (processEvent sendOk tid db e).1.topics.map (fun t => (t.id, t.server, t.topic)) =
      db.topics.map (fun t => (t.id, t.server, t.topic)) := by
  unfold processEvent
  split
  · rfl
  · simp only [update_topic_id, List.map_map]
    refine List.map_congr_left fun t _ => ?_
    by_cases h : t.id = tid <;> simp [h]

/-! Shared concrete instances used by the witnesses and examples. -/

def exDB : DBState := ⟨[⟨0, "s", "t", none⟩], [⟨0, "r"⟩]⟩

def exDB3 : DBState := ⟨[⟨0, "s", "t", none⟩], [⟨0, "r1"⟩, ⟨0, "r2"⟩, ⟨0, "r3"⟩]⟩

def exMsg : StreamEvent := { id := "1", event := "message", topic := "t", message := "hi" }

def exOpen : StreamEvent := { id := "2", event := "open" }

def sendOkEx : String → Bool := fun r => r != "r2"

def exDecode : String → Option StreamEvent :=
  fun s => if s = "good" then some exMsg else none

/-- C1: for a `"message"` event the cursor persist is the first action of the
iteration — strictly before every per-room delivery (all remaining actions
are deliveries) — and afterwards the topic's stored cursor equals the
event's id, whatever each room's delivery outcome (including all
failing). -/
theorem message_persists_cursor_before_fanout (sendOk : String → Bool)
    (tid : Nat) (db : DBState) (e : StreamEvent)
    (h : e.event = "message") (hrow : (cursorOf db tid).isSome = true) :
    (processEvent sendOk tid db e).2.head? = some (Action.persistCursor tid e.id) ∧
    (∀ a ∈ (processEvent sendOk tid db e).2.tail, ∃ r ok, a = Action.deliver r ok) ∧
    cursorOf (processEvent sendOk tid db e).1 tid = some (some e.id) := by
  have hne : ¬e.event ≠ "message" := by simp [h]
  refine ⟨?_, ?_, ?_⟩
  · simp [processEvent, hne]
  · intro a ha
    simp only [processEvent, if_neg hne, List.tail_cons, List.mem_map] at ha
    obtain ⟨r, -, rfl⟩ := ha
    exact ⟨_, _, rfl⟩
  · simp only [processEvent, if_neg hne]
    rw [cursorOf_update]
    obtain ⟨c, hc⟩ := Option.isSome_iff_exists.mp hrow
    simp [hc]

/-- Witness for `message_persists_cursor_before_fanout`: a message event on
topic 0 of `exDB`, with a delivery oracle failing every room; the persist
still heads the trace and the cursor still reads `"1"`. -/
theorem message_persists_cursor_witness :
    (processEvent (fun _ => false) 0 exDB exMsg).2.head? =
      some (Action.persistCursor 0 "1") ∧
    cursorOf (processEvent (fun _ => false) 0 exDB exMsg).1 0 = some (some "1") := by
  have h := message_persists_cursor_before_fanout (fun _ => false) 0 exDB exMsg
    (by decide) (by decide)
  exact ⟨h.1, h.2.2⟩

/-- C5: a decoded event whose `event` field is not `"message"` is discarded —
no state change, no delivery; and on the concrete input
`{id:"1",event:"message",topic:"t",message:"hi"}` then
`{id:"2",event:"open"}`, only the first event is delivered and the cursor
ends as `"1"`. -/
theorem non_message_discarded (sendOk : String → Bool) (tid : Nat)
    (db : DBState) (e : StreamEvent) (h : e.event ≠ "message") :
    processEvent sendOk tid db e = (db, []) ∧
    runEvents (fun _ => true) 0 exDB [exMsg, exOpen] =
      (⟨[⟨0, "s", "t", some "1"⟩], [⟨0, "r"⟩]⟩,
       [Action.persistCursor 0 "1", Action.deliver "r" true]) := by
  exact ⟨by simp [processEvent, h], by decide⟩

/-- Witness for `non_message_discarded` at the `"open"` event of the concrete
sequence: it changes nothing and delivers nothing. -/
theorem non_message_discarded_witness :
    processEvent (fun _ => true) 0 exDB exOpen = (exDB, []) := by
  exact (non_message_discarded (fun _ => true) 0 exDB exOpen (by decide)).1

/-- C7: fan-out failures are contained per room: every subscribed room gets
its own delivery attempt with its own outcome (one failing room cannot
remove another room's delivery), the already-advanced cursor stays at the
event's id whatever the outcomes, and the stream goes on — the next
event is still processed (its cursor persist appears in the trace). -/
theorem delivery_failure_isolated (sendOk : String → Bool) (tid : Nat)
    (db : DBState) (e e2 : StreamEvent)
    (h : e.event = "message") (h2 : e2.event = "message")
    (hrow : (cursorOf db tid).isSome = true) :
    (∀ s ∈ get_subscriptions db tid,
        Action.deliver s.room_id (sendOk s.room_id) ∈ (processEvent sendOk tid db e).2) ∧
    cursorOf (processEvent sendOk tid db e).1 tid = some (some e.id) ∧
    Action.persistCursor tid e2.id ∈ (runEvents sendOk tid db [e, e2]).2 := by
  have hne : ¬e.event ≠ "message" := by simp [h]
  have hne2 : ¬e2.event ≠ "message" := by simp [h2]
  refine ⟨?_, ?_, ?_⟩
  · intro s hs
    have hs1 : s ∈ get_subscriptions (update_topic_id db tid e.id) tid := by
      simpa [get_subscriptions, update_topic_id] using hs
    have hmem : Action.deliver s.room_id (sendOk s.room_id) ∈
        ((get_subscriptions (update_topic_id db tid e.id) tid).map (·.room_id)).map
          (fun r => Action.deliver r (sendOk r)) := by
      rw [List.map_map]
      exact List.mem_map_of_mem _ hs1
    simp only [processEvent, if_neg hne]
    exact List.mem_cons_of_mem _ hmem
  · simp only [processEvent, if_neg hne]
    rw [cursorOf_update]
    obtain ⟨c, hc⟩ := Option.isSome_iff_exists.mp hrow
    simp [hc]
  · simp only [runEvents, processEvent, if_neg hne, if_neg hne2, List.mem_append,
      List.mem_cons]
    tauto

/-- Witness for `delivery_failure_isolated`: three subscribed rooms, delivery
to `"r2"` failing; `"r1"` and `"r3"` still receive the message, the cursor
reads `"1"`, and a second event is still processed. -/
theorem delivery_failure_isolated_witness :
    Action.deliver "r1" true ∈ (processEvent sendOkEx 0 exDB3 exMsg).2 ∧
    Action.deliver "r3" true ∈ (processEvent sendOkEx 0 exDB3 exMsg).2 ∧
    Action.deliver "r2" false ∈ (processEvent sendOkEx 0 exDB3 exMsg).2 ∧
    cursorOf (processEvent sendOkEx 0 exDB3 exMsg).1 0 = some (some "1") ∧
    Action.persistCursor 0 "2" ∈
      (runEvents sendOkEx 0 exDB3 [exMsg, { exMsg with id := "2" }]).2 := by
  have h := delivery_failure_isolated sendOkEx 0 exDB3 exMsg { exMsg with id := "2" }
    (by decide) (by decide) (by decide)
  refine ⟨?_, ?_, ?_, h.2.1, h.2.2⟩
  · have := h.1 ⟨0, "r1"⟩ (by decide)
    simpa using this
  · have := h.1 ⟨0, "r3"⟩ (by decide)
    simpa using this
  · have := h.1 ⟨0, "r2"⟩ (by decide)
    simpa using this

/-- C8: a line whose decode fails — in particular the blank line produced at
end of stream, since `json.loads("")` raises — terminates the topic's
stream task at exactly that line as an error (`RunEnd.decodeFail`, the
loop's only exit being an exception that propagates to the supervising
done-callback); everything after the bad line is unprocessed, the
subscription rows are untouched, and the topic rows survive unchanged
except for cursors already advanced by earlier good lines. -/
theorem bad_line_kills_stream (decode : String → Option StreamEvent)
    (sendOk : String → Bool) (tid : Nat) (db : DBState)
    (pre : List String) (l : String) (post : List String)
    (hpre : ∀ p ∈ pre, (decode (pyStrip p)).isSome = true)
    (hbad : decode (pyStrip l) = none) :
    (runLines decode sendOk tid db (pre ++ l :: post)).2.2 = RunEnd.decodeFail l post ∧
    (runLines decode sendOk tid db (pre ++ l :: post)).1.subs = db.subs ∧
    (runLines decode sendOk tid db (pre ++ l :: post)).1.topics.map
        (fun t => (t.id, t.server, t.topic)) =
      db.topics.map (fun t => (t.id, t.server, t.topic)) := by
  induction pre generalizing db with
  | nil => simp [runLines, hbad]
  | cons p ps ih =>
      obtain ⟨e, he⟩ := Option.isSome_iff_exists.mp (hpre p (List.mem_cons_self p ps))
      have hps : ∀ q ∈ ps, (decode (pyStrip q)).isSome = true :=
        fun q hq => hpre q (List.mem_cons_of_mem p hq)
      have h1 := ih (processEvent sendOk tid db e).1 hps
      simp only [List.cons_append, runLines, he]
      exact ⟨h1.1, h1.2.1.trans (processEvent_subs sendOk tid db e),
        h1.2.2.trans (processEvent_topicShape sendOk tid db e)⟩

/-- Witness for `bad_line_kills_stream`: one good line, then a blank line,
then an unreached line; the run errors at the blank line with the rooms
still subscribed. -/
theorem bad_line_kills_stream_witness :
    (runLines exDecode (fun _ => true) 0 exDB ["good", "", "unreached"]).2.2 =
      RunEnd.decodeFail "" ["unreached"] ∧
    (runLines exDecode (fun _ => true) 0 exDB ["good", "", "unreached"]).1.subs =
      exDB.subs := by
  have h := bad_line_kills_stream exDecode (fun _ => true) 0 exDB ["good"] "" ["unreached"]
    (by decide) (by decide)
  exact ⟨h.1, h.2.1⟩

/-! ## bot.py: the subscription manager

State made of the two tables plus the list of running stream tasks
(`tasks`, one entry per `asyncio.Task`, identified by the topic id it
streams) and the id the next `create_topic` hands out. -/

structure MgrState where
  topics : List TopicRow
  subs : List SubRow
  tasks : List Nat
  nextId : Nat
deriving DecidableEq, Repr

inductive SubscribeReply where
  | alreadySubscribed
  | subscribed
deriving DecidableEq, Repr

inductive UnsubscribeReply where
  | notSubscribed
  | unsubscribed
deriving DecidableEq, Repr

/-- `SELECT ... FROM topics WHERE server = $1 AND topic = $2` (first row). -/
def get_topic (s : MgrState) (server topic : String) : Option TopicRow :=
  s.topics.find? (fun t => t.server == server && t.topic == topic)

/-- `get_subscription`: the join returns a row iff the (topic_id, room_id)
subscription row exists and the topic row with that id exists. -/
def hasSubscription (s : MgrState) (tid : Nat) (room : String) : Bool :=
  (s.subs.any (fun r => r.topic_id == tid && r.room_id == room)) &&
    (s.topics.any (fun t => t.id == tid))

/-- The tail of the `subscribe` handler, once the topic row (id `tid`) is
known to exist: read the pre-existing subscriptions, report
`AlreadySubscribed` as a no-op if the (topic, room) row exists, else add
the row and — when the topic had no subscriptions before — start its
stream task. -/
def subscribeCore (s : MgrState) (tid : Nat) (room : String) :
    SubscribeReply × MgrState :=
  if hasSubscription s tid room then (.alreadySubscribed, s)
  else if (s.subs.filter (fun r => r.topic_id == tid)).isEmpty then
    (.subscribed, { s with subs := s.subs ++ [⟨tid, room⟩], tasks := s.tasks ++ [tid] })
  else (.subscribed, { s with subs := s.subs ++ [⟨tid, room⟩] })

/-- The `subscribe` command handler: ensure the Topic row exists (fresh id,
null cursor, on first sight), then `subscribeCore`. -/
def subscribe (s : MgrState) (server topic room : String) :
    SubscribeReply × MgrState :=
  match get_topic s server topic with
  | some t => subscribeCore s t.id room
  | none =>
      subscribeCore
        { s with
          topics := s.topics ++ [⟨s.nextId, server, topic, none⟩],
          nextId := s.nextId + 1 }
        s.nextId room

/-- The `unsubscribe` command handler: remove the Subscription row if it
exists; the stream task is NOT touched. -/
def unsubscribe (s : MgrState) (server topic room : String) :
    UnsubscribeReply × MgrState :=
  match get_topic s server topic with
  | none => (.notSubscribed, s)
  | some t =>
      if hasSubscription s t.id room then
        (.unsubscribed,
         { s with
           subs := s.subs.filter (fun r => !(r.topic_id == t.id && r.room_id == room)) })
      else (.notSubscribed, s)

/-- `clear_subscriptions` seen at the task-registry level: every task is
cancelled/awaited and the registry is emptied. -/
def clearTasks (s : MgrState) : MgrState := { s with tasks := [] }

/-- `DB.get_topics`: the topics ↔ subscriptions inner join, grouped by topic
id — the ids of topics having at least one subscription. -/
def get_topics (s : MgrState) : List Nat :=
  (s.topics.filter (fun t => s.subs.any (fun r => r.topic_id == t.id))).map (·.id)

/-- `resubscribe`: clear every task, then `subscribe_to_topics` starts one
task per topic returned by `get_topics`. -/
def resubscribe (s : MgrState) : MgrState :=
  let s1 := clearTasks s
  { s1 with tasks := get_topics s1 }

/-- A stream task finishing (error or cancellation): the
`task.add_done_callback(self.tasks.remove)` callback drops it from the
registry. -/
def streamEnded (s : MgrState) (tid : Nat) : MgrState :=
  { s with tasks := s.tasks.erase tid }

def initState : MgrState := ⟨[], [], [], 0⟩

/-- One observable step of the bot. -/
inductive Step : MgrState → MgrState → Prop where
  | sub (s : MgrState) (server topic room : String) :
      Step s (subscribe s server topic room).2
  | unsub (s : MgrState) (server topic room : String) :
      Step s (unsubscribe s server topic room).2
  | shutdown (s : MgrState) : Step s (clearTasks s)
  | resub (s : MgrState) : Step s (resubscribe s)
  | taskEnd (s : MgrState) (tid : Nat) : Step s (streamEnded s tid)

inductive Reachable : MgrState → Prop where
  | init : Reachable initState
  | step {s s' : MgrState} : Reachable s → Step s s' → Reachable s'

lemma subscribeCore_topics (s : MgrState) (tid : Nat) (room : String) :
    (subscribeCore s tid room).2.topics = s.topics := by
  unfold subscribeCore
  split
  · rfl
  · split <;> rfl

lemma subscribeCore_establishes (s : MgrState) (tid : Nat) (room : String)
    (htop : s.topics.any (fun u => u.id == tid) = true) :
    hasSubscription (subscribeCore s tid room).2 tid room = true := by
  unfold subscribeCore
  by_cases hh : hasSubscription s tid room
  · simp [hh]
  · have hany : (s.subs ++ [⟨tid, room⟩] : List SubRow).any
        (fun r => r.topic_id == tid && r.room_id == room) = true := by
      simp [List.any_append]
    simp only [hh, Bool.false_eq_true, if_false]
    split <;> simp [hasSubscription, hany, htop]

lemma subscribe_already {x : MgrState} {server topic room : String} {t : TopicRow}
    (hg : get_topic x server topic = some t)
    (hh : hasSubscription x t.id room = true) :
    subscribe x server topic room = (.alreadySubscribed, x) := by
  unfold subscribe
  rw [hg]
  unfold subscribeCore
  simp [hh]

lemma subscribe_establishes (s : MgrState) (server topic room : String) :
    ∃ t, get_topic (subscribe s server topic room).2 server topic = some t ∧
      hasSubscription (subscribe s server topic room).2 t.id room = true := by
  unfold subscribe
  cases hg : get_topic s server topic with
  | some t =>
      have htm : t ∈ s.topics := List.mem_of_find?_eq_some hg
      refine ⟨t, ?_, ?_⟩
      · unfold get_topic at hg ⊢
        rw [subscribeCore_topics]
        exact hg
      · exact subscribeCore_establishes s t.id room
          (List.any_of_mem htm (by simp))
  | none =>
      refine ⟨⟨s.nextId, server, topic, none⟩, ?_, ?_⟩
      · unfold get_topic at hg ⊢
        rw [subscribeCore_topics]
        simp [List.find?_append, hg]
      · exact subscribeCore_establishes _ s.nextId room
          (by simp [List.any_append])

/-- C3: subscribe is idempotent for the same (server, topic, room): right
after a room subscribed to a topic, subscribing it again reports
`AlreadySubscribed` and leaves the whole state untouched — no duplicate
Subscription row, no second stream task. -/
theorem subscribe_idempotent (s : MgrState) (server topic room : String) :
    subscribe (subscribe s server topic room).2 server topic room =
      (SubscribeReply.alreadySubscribed, (subscribe s server topic room).2) := by
  obtain ⟨t, hg, hh⟩ := subscribe_establishes s server topic room
  exact subscribe_already hg hh

/-- C2 counterexample: the invariant "a topic with 0 Subscriptions has no
running Stream Task" fails at a reachable state: subscribe room `"r"` to
`s/t` (starting its stream task), then unsubscribe it — `unsubscribe`
removes the row but never cancels the task, so topic 0 has zero
subscriptions and one still-running task. -/
theorem zero_sub_topic_keeps_task :
    Reachable ⟨[⟨0, "s", "t", none⟩], [], [0], 1⟩ ∧
    (⟨[⟨0, "s", "t", none⟩], [], [0], 1⟩ : MgrState).subs.filter
        (fun r => r.topic_id == 0) = [] ∧
    (⟨[⟨0, "s", "t", none⟩], [], [0], 1⟩ : MgrState).tasks.count 0 = 1 := by
  refine ⟨?_, by decide, by decide⟩
  have hr := Reachable.step
    (Reachable.step Reachable.init (Step.sub initState "s" "t" "r"))
    (Step.unsub (subscribe initState "s" "t" "r").2 "s" "t" "r")
  have heq : (unsubscribe (subscribe initState "s" "t" "r").2 "s" "t" "r").2 =
      ⟨[⟨0, "s", "t", none⟩], [], [0], 1⟩ := by decide
  rwa [heq] at hr

lemma unsubscribe_topics (s : MgrState) (server topic room : String) :
    (unsubscribe s server topic room).2.topics = s.topics ∧
    (unsubscribe s server topic room).2.nextId = s.nextId := by
  unfold unsubscribe
  split
  · exact ⟨rfl, rfl⟩
  · split <;> exact ⟨rfl, rfl⟩

lemma subscribeCore_nextId (s : MgrState) (tid : Nat) (room : String) :
    (subscribeCore s tid room).2.nextId = s.nextId := by
  unfold subscribeCore
  split
  · rfl
  · split <;> rfl

/-- Every reachable state has topic ids bounded by `nextId` and pairwise
distinct (the id column is the generated primary key). -/
lemma reachable_ids (s : MgrState) (h : Reachable s) :
    (∀ t ∈ s.topics, t.id < s.nextId) ∧ (s.topics.map (·.id)).Nodup := by
  induction h with
  | init =>
      refine ⟨?_, List.nodup_nil⟩
      intro t ht
      exact absurd ht (List.not_mem_nil t)
  | step hr hs ih =>
      rename_i s0 s1
      cases hs with
      | sub server topic room =>
          unfold subscribe
          cases hg : get_topic s0 server topic with
          | some t =>
              rw [subscribeCore_topics, subscribeCore_nextId]
              exact ih
          | none =>
              rw [subscribeCore_topics, subscribeCore_nextId]
              constructor
              · intro t ht
                simp only [List.mem_append, List.mem_singleton] at ht
                rcases ht with ht | rfl
                · exact Nat.lt_succ_of_lt (ih.1 t ht)
                · exact Nat.lt_succ_self _
              · rw [List.map_append]
                refine List.Nodup.append ih.2 (by simp) ?_
                intro a ha hb
                simp only [List.map_cons, List.map_nil, List.mem_singleton] at hb
                subst hb
                obtain ⟨t, ht, hid⟩ := List.mem_map.mp ha
                exact absurd hid (Nat.ne_of_lt (ih.1 t ht))
      | unsub server topic room =>
          rw [(unsubscribe_topics s0 server topic room).1,
            (unsubscribe_topics s0 server topic room).2]
          exact ih
      | shutdown => exact ih
      | resub => exact ih
      | taskEnd tid => exact ih

lemma filter_ne_nil_iff_any (subs : List SubRow) (tid : Nat) :
    (subs.filter (fun r => r.topic_id == tid) ≠ []) ↔
      subs.any (fun r => r.topic_id == tid) = true := by
  rw [Ne, List.filter_eq_nil_iff, List.any_eq_true]
  push_neg
  simp

/-- C2 (amended): the claimed stream-task cardinality invariant does hold at
every state reached by a startup/`resubscribe` resume: right after
`resubscribe` of any reachable state, a topic with at least one
Subscription has exactly one running task and a topic with none has none.
It is not preserved by later steps: `unsubscribe` leaves a 0-subscription
topic's task running until shutdown or resubscribe (see the
counterexample). -/
theorem stream_task_invariant_after_resume (s : MgrState) (h : Reachable s) :
    ∀ t ∈ (resubscribe s).topics,
      ((resubscribe s).subs.filter (fun r => r.topic_id == t.id) ≠ [] →
        (resubscribe s).tasks.count t.id = 1) ∧
      ((resubscribe s).subs.filter (fun r => r.topic_id == t.id) = [] →
        (resubscribe s).tasks.count t.id = 0) := by
  have hnd := (reachable_ids s h).2
  intro t ht
  have htopics : (resubscribe s).topics = s.topics := rfl
  have hsubs : (resubscribe s).subs = s.subs := rfl
  have htasks : (resubscribe s).tasks =
      (s.topics.filter (fun u => s.subs.any (fun r => r.topic_id == u.id))).map
        (·.id) := rfl
  rw [htopics] at ht
  rw [hsubs, htasks]
  have hndt : ((s.topics.filter
      (fun u => s.subs.any (fun r => r.topic_id == u.id))).map (·.id)).Nodup :=
    ((List.filter_sublist s.topics).map (·.id)).nodup hnd
  constructor
  · intro hne
    have hp : s.subs.any (fun r => r.topic_id == t.id) = true :=
      (filter_ne_nil_iff_any s.subs t.id).mp hne
    exact List.count_eq_one_of_mem hndt
      (List.mem_map_of_mem _ (List.mem_filter.mpr ⟨ht, hp⟩))
  · intro hnil
    refine List.count_eq_zero_of_not_mem fun hmem => ?_
    obtain ⟨u, hu, hid⟩ := List.mem_map.mp hmem
    have hu2 := List.mem_filter.mp hu
    have hut : u = t := List.inj_on_of_nodup_map hnd hu2.1 ht hid
    exact (filter_ne_nil_iff_any s.subs t.id).mpr (hut ▸ hu2.2) hnil

/-- Witness for `stream_task_invariant_after_resume`: resubscribe after one
room subscribed — topic 0 has one subscription and exactly one task. -/
theorem stream_task_invariant_witness :
    (resubscribe (subscribe initState "s" "t" "r").2).tasks.count 0 = 1 := by
  have hreach : Reachable (subscribe initState "s" "t" "r").2 :=
    Reachable.step Reachable.init (Step.sub initState "s" "t" "r")
  have h := stream_task_invariant_after_resume (subscribe initState "s" "t" "r").2
    hreach ⟨0, "s", "t", none⟩ (by decide)
  exact h.1 (by decide)

/-! ## bot.py: clear_subscriptions and log_task_exc, at the task level

A task the loop meets is `running` (not done: it gets `cancel()`ed, then
awaiting it raises `CancelledError`, swallowed by the `except
asyncio.CancelledError: pass` arm), already `cancelled`, done cleanly
(`doneOk`) or done with an exception (`doneErr`, whose `await` re-raises
and is logged by the `except Exception` arm). -/

inductive TaskPhase where
  | running
  | cancelled
  | doneOk
  | doneErr
deriving DecidableEq, Repr

inductive LogEntry where
  | cancelDebug
  | taskErrorLog
deriving DecidableEq, Repr

/-- One iteration of the `clear_subscriptions` loop on one task: the task's
phase after being awaited, and what got logged. -/
def awaitTask : TaskPhase → TaskPhase × List LogEntry
  | .running => (.cancelled, [.cancelDebug])
  | .cancelled => (.cancelled, [])
  | .doneOk => (.doneOk, [])
  | .doneErr => (.doneErr, [.taskErrorLog])

/-- `clear_subscriptions`: early return on an empty registry, else await
every task and empty the registry (`self.tasks[:] = []`). Returns the
remaining active-task list and the emitted log. -/
def clear_subscriptions (tasks : List TaskPhase) : List TaskPhase × List LogEntry :=
  if tasks.isEmpty then (tasks, [])
  else ([], (tasks.map awaitTask).flatMap Prod.snd)

/-- The `log_task_exc` done-callback: logs "Subscription task errored" only
for a done, non-cancelled task. -/
def log_task_exc (done cancelled : Bool) : List LogEntry :=
  if done && !cancelled then [.taskErrorLog] else []

/-- C6: shutdown is safe with zero active streams, always leaves the active
set empty, cancels each running task (awaiting it as `cancelled`, with
only a debug log), an error is ever logged only for a task that finished
with its own exception — never for a cancelled one — and the
`log_task_exc` callback never reports a cancelled task. -/
theorem shutdown_clears_tasks :
    clear_subscriptions [] = ([], []) ∧
    (∀ ts, (clear_subscriptions ts).1 = []) ∧
    (∀ ts, LogEntry.taskErrorLog ∈ (clear_subscriptions ts).2 →
      TaskPhase.doneErr ∈ ts) ∧
    awaitTask TaskPhase.running = (TaskPhase.cancelled, [LogEntry.cancelDebug]) ∧
    (∀ d : Bool, log_task_exc d true = []) := by
  refine ⟨rfl, ?_, ?_, rfl, ?_⟩
  · intro ts
    unfold clear_subscriptions
    split
    · next he => rw [List.isEmpty_iff] at he; exact he
    · rfl
  · intro ts hmem
    unfold clear_subscriptions at hmem
    split at hmem
    · simp at hmem
    · obtain ⟨pr, hpr, hin⟩ := List.mem_flatMap.mp hmem
      obtain ⟨ph, hph, rfl⟩ := List.mem_map.mp hpr
      cases ph with
      | running => simp [awaitTask] at hin
      | cancelled => simp [awaitTask] at hin
      | doneOk => simp [awaitTask] at hin
      | doneErr => exact hph
  · intro d
    simp [log_task_exc]

/-- Witness for `shutdown_clears_tasks`: one running and one errored task —
registry emptied, the error log traced back to the errored task, and the
callback silent on a cancelled task. -/
theorem shutdown_clears_tasks_witness :
    (clear_subscriptions [TaskPhase.running, TaskPhase.doneErr]).1 = [] ∧
    TaskPhase.doneErr ∈ [TaskPhase.running, TaskPhase.doneErr] ∧
    log_task_exc true true = [] := by
  have h := shutdown_clears_tasks
  exact ⟨h.2.1 [TaskPhase.running, TaskPhase.doneErr],
    h.2.2.1 [TaskPhase.running, TaskPhase.doneErr] (by decide),
    h.2.2.2.2 true⟩

end Ntfy
